import Mathlib

/-!
Shallow embedding of the Mergington High School activities backend
(src/src/models.py, src/src/app.py, src/src/database.py, src/migrate.py).

Tables are modelled as lists kept in insertion order: the users table is the
list of stored e-mail strings (a User row carries only the field the claims
touch, its unique e-mail), an activity row carries its scalar columns
together with the e-mails of its enrolled participants (the
activity_participants association rows grouped by activity), and a Store is
the whole database. Each route handler becomes a pure function from a Store
to a result paired with the Store after the request: the second component is
the committed state, so every error outcome returns the input Store
unchanged (on every error path the code either rolls back or closes the
session without committing). Python string lowercasing is modelled by
lowerString; the two agree on ASCII, which covers all data in this
development.
-/

/-- Outcome of one request, as seen by the caller. httpError is a raised
fastapi HTTPException carrying its status code and detail string; unhandled
is an exception that escapes the route handler entirely (the framework turns
it into a generic HTTP 500 response). -/
inductive ApiResult where
  | ok (message : String)
  | httpError (status : Nat) (detail : String)
  | unhandled (detail : String)
  deriving Repr, DecidableEq

/-- True exactly on the successful outcome. -/
def ApiResult.isOk : ApiResult → Bool
  | .ok _ => true
  | _ => false

/-- One row of the activities table together with its association rows:
models.py, class Activity. participants lists the e-mails of the enrolled
users in insertion order. -/
structure Activity where
  name : String
  description : String
  schedule : String
  max_participants : Nat
  participants : List String
  deriving Repr, DecidableEq

/-- models.py line 102: is_full is len(participants) >= max_participants. -/
def Activity.is_full (a : Activity) : Bool :=
  decide (a.max_participants ≤ a.participants.length)

/-- models.py line 97: available_spots is max_participants - len(participants)
(Python int subtraction, so the value may be negative). -/
def Activity.available_spots (a : Activity) : Int :=
  (a.max_participants : Int) - (a.participants.length : Int)

/-- The whole database: the users table (stored e-mails in insertion order)
and the activities table with their association rows. -/
structure Store where
  users : List String
  activities : List Activity
  deriving Repr, DecidableEq

/-- The state of a freshly created database: init_database creates empty
tables. -/
def emptyStore : Store := { users := [], activities := [] }

/-- app.py line 92: select(Activity).where(Activity.name == activity_name),
scalar_one_or_none, with SQLite performing a case-sensitive comparison. -/
def findActivity (s : Store) (n : String) : Option Activity :=
  s.activities.find? (fun a => a.name == n)

/-- Applies g to the activity row named n and keeps every other row; the
name column is unique, so on well-formed stores this touches exactly the row
the handler loaded. -/
def modifyActivity (s : Store) (n : String) (g : Activity → Activity) : Store :=
  { s with activities := s.activities.map (fun a => if a.name == n then g a else a) }

/-- app.py line 126: activity.participants.append(user), an insert into the
association table. -/
def addParticipant (s : Store) (n u : String) : Store :=
  modifyActivity s n (fun a => { a with participants := a.participants ++ [u] })

/-- app.py line 178: activity.participants.remove(user), deleting the
association row (the first matching list entry). -/
def removeParticipant (s : Store) (n u : String) : Store :=
  modifyActivity s n (fun a => { a with participants := a.participants.erase u })

/-- Python str.lower on one character, for the ASCII range (every address in
this development is ASCII). -/
def lowerChar (c : Char) : Char :=
  if 'A' ≤ c ∧ c ≤ 'Z' then Char.ofNat (c.toNat + 32) else c

/-- Python str.lower: models.py line 49 returns address.lower(). -/
def lowerString (s : String) : String :=
  String.mk (s.toList.map lowerChar)

/-- models.py line 47: the regular expression ^[^@]+@[^@]+\.[^@]+$ matches
the address exactly when the address splits as loc@dom with exactly one at
sign, a non-empty loc, and a dot somewhere strictly inside dom (at least one
character of dom on each side). -/
def validEmail (email : String) : Bool :=
  match email.toList.splitOn '@' with
  | [loc, dom] => !loc.isEmpty && ((dom.drop 1).dropLast.contains '.')
  | _ => false

/-- app.py lines 86-148, signup_for_activity. The branches, in source order:
activity lookup (404 when absent); capacity check (400 "Activity is full");
user lookup by the raw e-mail; for a found user, the duplicate-enrollment
check (400 "Student is already signed up") and otherwise the append and the
single commit; for an absent user, User(email=email) runs the validates
hook, whose ValueError on a malformed address is caught by none of the
except clauses and escapes the handler (unhandled); on a well-formed address
the stored e-mail is the lower-cased input, and db.flush raises
IntegrityError (caught: 400 "Data integrity error - possibly invalid email
format", rollback) when that lower-cased e-mail already exists; otherwise
the new user row and the new association row are committed together. A
freshly created user object is never `in` the loaded participants list
(object identity), so the duplicate-enrollment check cannot fire on the
creation path. -/
def signup (s : Store) (activity_name email : String) : ApiResult × Store :=
  match findActivity s activity_name with
  | none => (ApiResult.httpError 404 "Activity not found", s)
  | some activity =>
    if activity.is_full then
      (ApiResult.httpError 400 "Activity is full", s)
    else if email ∈ s.users then
      if email ∈ activity.participants then
        (ApiResult.httpError 400 "Student is already signed up", s)
      else
        (ApiResult.ok ("Signed up " ++ email ++ " for " ++ activity_name),
          addParticipant s activity_name email)
    else if validEmail email then
      if lowerString email ∈ s.users then
        (ApiResult.httpError 400 "Data integrity error - possibly invalid email format", s)
      else
        (ApiResult.ok ("Signed up " ++ email ++ " for " ++ activity_name),
          addParticipant { s with users := s.users ++ [lowerString email] }
            activity_name (lowerString email))
    else
      (ApiResult.unhandled "Invalid email format", s)

/-- app.py lines 151-193, unregister_from_activity: activity lookup (404
when absent); then 400 "Student is not signed up for this activity" unless
the user row exists and is a participant; otherwise the association row is
removed and committed. -/
def unregister (s : Store) (activity_name email : String) : ApiResult × Store :=
  match findActivity s activity_name with
  | none => (ApiResult.httpError 404 "Activity not found", s)
  | some activity =>
    if email ∈ s.users ∧ email ∈ activity.participants then
      (ApiResult.ok ("Unregistered " ++ email ++ " from " ++ activity_name),
        removeParticipant s activity_name email)
    else
      (ApiResult.httpError 400 "Student is not signed up for this activity", s)

/-- database.py lines 118-173: the fixed canonical list of nine activities,
in source order. -/
def initialActivities : List Activity :=
  [ { name := "Chess Club",
      description := "Learn strategies and compete in chess tournaments",
      schedule := "Fridays, 3:30 PM - 5:00 PM",
      max_participants := 12, participants := [] },
    { name := "Programming Class",
      description := "Learn programming fundamentals and build software projects",
      schedule := "Tuesdays and Thursdays, 3:30 PM - 4:30 PM",
      max_participants := 20, participants := [] },
    { name := "Gym Class",
      description := "Physical education and sports activities",
      schedule := "Mondays, Wednesdays, Fridays, 2:00 PM - 3:00 PM",
      max_participants := 30, participants := [] },
    { name := "Soccer Team",
      description := "Join the school soccer team and compete in matches",
      schedule := "Tuesdays and Thursdays, 4:00 PM - 5:30 PM",
      max_participants := 22, participants := [] },
    { name := "Basketball Team",
      description := "Practice and play basketball with the school team",
      schedule := "Wednesdays and Fridays, 3:30 PM - 5:00 PM",
      max_participants := 15, participants := [] },
    { name := "Art Club",
      description := "Explore your creativity through painting and drawing",
      schedule := "Thursdays, 3:30 PM - 5:00 PM",
      max_participants := 15, participants := [] },
    { name := "Drama Club",
      description := "Act, direct, and produce plays and performances",
      schedule := "Mondays and Wednesdays, 4:00 PM - 5:30 PM",
      max_participants := 20, participants := [] },
    { name := "Math Club",
      description := "Solve challenging problems and participate in math competitions",
      schedule := "Tuesdays, 3:30 PM - 4:30 PM",
      max_participants := 10, participants := [] },
    { name := "Debate Team",
      description := "Develop public speaking and argumentation skills",
      schedule := "Fridays, 4:00 PM - 5:30 PM",
      max_participants := 12, participants := [] } ]

/-- database.py lines 181-200: the fixed canonical (email, activityName)
enrollment pairs, in source order. -/
def initialEnrollments : List (String × String) :=
  [ ("michael@mergington.edu", "Chess Club"),
    ("daniel@mergington.edu", "Chess Club"),
    ("emma@mergington.edu", "Programming Class"),
    ("sophia@mergington.edu", "Programming Class"),
    ("john@mergington.edu", "Gym Class"),
    ("olivia@mergington.edu", "Gym Class"),
    ("liam@mergington.edu", "Soccer Team"),
    ("noah@mergington.edu", "Soccer Team"),
    ("ava@mergington.edu", "Basketball Team"),
    ("mia@mergington.edu", "Basketball Team"),
    ("amelia@mergington.edu", "Art Club"),
    ("harper@mergington.edu", "Art Club"),
    ("ella@mergington.edu", "Drama Club"),
    ("scarlett@mergington.edu", "Drama Club"),
    ("james@mergington.edu", "Math Club"),
    ("benjamin@mergington.edu", "Math Club"),
    ("charlotte@mergington.edu", "Debate Team"),
    ("henry@mergington.edu", "Debate Team") ]

/-- database.py lines 176-202, first half of the seeding body: the nine
activity rows are added and then committed on their own (the commit at line
202 happens before any user or association row exists). -/
def seedPhase1 (s : Store) : Store :=
  { s with activities := s.activities ++ initialActivities }

/-- database.py lines 205-230, one iteration of the enrollment loop: get or
create the user by e-mail (creation stores the lower-cased address), find
the activity by name, and append the participant unless an enrollment
between this user and this activity already exists (an explicit existence
check). -/
def seedEnrollStep (s : Store) (p : String × String) : Store :=
  match p with
  | (email, aname) =>
    let u := if email ∈ s.users then email else lowerString email
    let s1 := if email ∈ s.users then s else { s with users := s.users ++ [lowerString email] }
    match findActivity s1 aname with
    | none => s1
    | some activity =>
      if u ∈ activity.participants then s1
      else addParticipant s1 aname u

/-- database.py lines 204-232, second half of the seeding body: the
enrollment loop over the canonical pairs followed by the second commit at
line 232. -/
def seedPhase2 (s : Store) : Store :=
  initialEnrollments.foldl seedEnrollStep s

/-- database.py lines 104-232, seed_initial_data: if any activity row
exists the function returns at once (line 115); otherwise it runs the two
committing phases in order. -/
def seed_initial_data (s : Store) : Store :=
  if s.activities.isEmpty then seedPhase2 (seedPhase1 s) else s

/-- migrate.py lines 67-96, reset_database: unless the typed confirmation is
exactly the literal RESET the function prints a cancellation and returns
False with nothing touched; with the exact token it drops and recreates all
tables (an empty store) and re-runs the seeding, returning True. -/
def reset_database (confirmation : String) (s : Store) : Bool × Store :=
  if confirmation ≠ "RESET" then (false, s)
  else (true, seed_initial_data emptyStore)

/-- The states reachable from the freshly seeded database by sequential
signup and unregister requests (each step keeps the committed store of the
request, whether it succeeded or failed). -/
inductive Reachable : Store → Prop where
  | seeded : Reachable (seed_initial_data emptyStore)
  | signup_step (s : Store) (n e : String) : Reachable s → Reachable (signup s n e).2
  | unregister_step (s : Store) (n e : String) : Reachable s → Reachable (unregister s n e).2

/-- The inductive invariant for claim C4: every activity row is within its
capacity, and activity names are pairwise distinct (the storage unique
constraint on activities.name). -/
def StoreInv (s : Store) : Prop :=
  (∀ a ∈ s.activities, a.participants.length ≤ a.max_participants)
  ∧ (s.activities.map (fun a => a.name)).Nodup

-- Sanity checks on small concrete inputs (claims restated before proving).
example : validEmail "michael@mergington.edu" = true := by decide
example : validEmail "not-an-email" = false := by decide
example : validEmail "a@b" = false := by decide
example : validEmail "a@b.c" = true := by decide
example : validEmail "@b.c" = false := by decide
example : validEmail "a@b.c@d.e" = false := by decide
example : lowerString "Bob@X.com" = "bob@x.com" := by decide
example : (seed_initial_data emptyStore).activities.length = 9 := by rfl
example :
    findActivity (seed_initial_data emptyStore) "Chess Club" =
      some { name := "Chess Club",
             description := "Learn strategies and compete in chess tournaments",
             schedule := "Fridays, 3:30 PM - 5:00 PM",
             max_participants := 12,
             participants := ["michael@mergington.edu", "daniel@mergington.edu"] } := by
  rfl

/-! ### Helper lemmas shared by the claim proofs. -/

/-- Branch equation: signup on a missing activity. -/
theorem signup_eq_none (s : Store) (n e : String) (h : findActivity s n = none) :
    signup s n e = (ApiResult.httpError 404 "Activity not found", s) := by
  unfold signup
  rw [h]

/-- Branch equation: signup once the activity row is loaded. -/
theorem signup_eq_some (s : Store) (n e : String) (a : Activity)
    (h : findActivity s n = some a) :
    signup s n e =
      (if a.is_full then (ApiResult.httpError 400 "Activity is full", s)
       else if e ∈ s.users then
         if e ∈ a.participants then
           (ApiResult.httpError 400 "Student is already signed up", s)
         else
           (ApiResult.ok ("Signed up " ++ e ++ " for " ++ n), addParticipant s n e)
       else if validEmail e then
         if lowerString e ∈ s.users then
           (ApiResult.httpError 400 "Data integrity error - possibly invalid email format", s)
         else
           (ApiResult.ok ("Signed up " ++ e ++ " for " ++ n),
             addParticipant { s with users := s.users ++ [lowerString e] } n (lowerString e))
       else (ApiResult.unhandled "Invalid email format", s)) := by
  unfold signup
  rw [h]

/-- Branch equation: unregister on a missing activity. -/
theorem unregister_eq_none (s : Store) (n e : String) (h : findActivity s n = none) :
    unregister s n e = (ApiResult.httpError 404 "Activity not found", s) := by
  unfold unregister
  rw [h]

/-- Branch equation: unregister once the activity row is loaded. -/
theorem unregister_eq_some (s : Store) (n e : String) (a : Activity)
    (h : findActivity s n = some a) :
    unregister s n e =
      (if e ∈ s.users ∧ e ∈ a.participants then
        (ApiResult.ok ("Unregistered " ++ e ++ " from " ++ n), removeParticipant s n e)
       else
        (ApiResult.httpError 400 "Student is not signed up for this activity", s)) := by
  unfold unregister
  rw [h]

/-- A map that fixes every element of the list is the identity. -/
theorem list_map_id_of_mem {α : Type} (l : List α) (f : α → α) (h : ∀ b ∈ l, f b = b) :
    l.map f = l := by
  induction l with
  | nil => rfl
  | cons x t ih =>
    simp only [List.map_cons, h x (List.mem_cons_self x t),
      ih (fun b hb => h b (List.mem_cons_of_mem x hb)), List.cons.injEq, and_self]

/-- Erasing a fresh element appended at the end recovers the list. -/
theorem erase_append_singleton {α : Type} [DecidableEq α] {p : List α} {e : α}
    (h : e ∉ p) : (p ++ [e]).erase e = p := by
  induction p with
  | nil => simp
  | cons x t ih =>
    have hx : x ≠ e := fun hxe => h (hxe ▸ List.mem_cons_self x t)
    simp only [List.cons_append]
    rw [List.erase_cons_tail (by simp [hx]), ih (fun ht => h (List.mem_cons_of_mem x ht))]

/-- The per-row update of modifyActivity never changes the name column. -/
theorem map_name_modify (l : List Activity) (n : String) (g : Activity → Activity)
    (hg : ∀ a, (g a).name = a.name) :
    (l.map (fun a => if a.name == n then g a else a)).map (fun a => a.name)
      = l.map (fun a => a.name) := by
  induction l with
  | nil => rfl
  | cons a t ih =>
    simp only [List.map_cons, ih, List.cons.injEq, and_true]
    by_cases h : a.name == n <;> simp [h, hg]

/-- A found activity is a row of the store and carries the requested name. -/
theorem findActivity_mem {s : Store} {n : String} {a : Activity}
    (h : findActivity s n = some a) : a ∈ s.activities ∧ a.name = n := by
  unfold findActivity at h
  exact ⟨List.mem_of_find?_eq_some h, by simpa using List.find?_some h⟩

/-- With pairwise distinct names, any row carrying the requested name is the
found one. -/
theorem findActivity_eq_of_nodup {s : Store} {n : String} {a b : Activity}
    (hnd : (s.activities.map (fun a => a.name)).Nodup)
    (h : findActivity s n = some a) (hb : b ∈ s.activities) (hbn : b.name = n) :
    b = a := by
  obtain ⟨ha, han⟩ := findActivity_mem h
  exact List.inj_on_of_nodup_map hnd hb ha (by rw [hbn, han])

/-- Looking an activity up after a name-preserving row update. -/
theorem findActivity_modify (s : Store) (n m : String) (g : Activity → Activity)
    (hg : ∀ a, (g a).name = a.name) :
    findActivity (modifyActivity s n g) m
      = (findActivity s m).map (fun a => if a.name == n then g a else a) := by
  unfold findActivity modifyActivity
  rw [List.find?_map]
  have hp : ∀ a : Activity,
      ((fun a => a.name == m) ∘ fun a => if a.name == n then g a else a) a
        = (a.name == m) := by
    intro a
    by_cases h : a.name = n
    · simp [h, hg]
    · simp [h, hg]
  rw [funext hp]

/-- Appending one participant to the non-full found activity keeps the
invariant. -/
theorem storeInv_addParticipant {s : Store} {n : String} (u : String) {a : Activity}
    (h : StoreInv s) (hf : findActivity s n = some a)
    (hlt : a.participants.length < a.max_participants) :
    StoreInv (addParticipant s n u) := by
  constructor
  · intro b hb
    simp only [addParticipant, modifyActivity, List.mem_map] at hb
    obtain ⟨c, hc, rfl⟩ := hb
    by_cases hcn : c.name = n
    · have hceq : c = a := findActivity_eq_of_nodup h.2 hf hc hcn
      subst hceq
      rw [if_pos (by simpa using hcn)]
      simp only [List.length_append, List.length_cons, List.length_nil]
      omega
    · rw [if_neg (by simpa using hcn)]
      exact h.1 c hc
  · have heq := map_name_modify s.activities n
      (fun a => { a with participants := a.participants ++ [u] }) (fun a => rfl)
    simp only [addParticipant, modifyActivity]
    rw [heq]
    exact h.2

/-- A row update that never grows a participant list and never changes the
capacity or name columns keeps the invariant. -/
theorem storeInv_modify_shrink {s : Store} {n : String} {g : Activity → Activity}
    (hg_name : ∀ a, (g a).name = a.name)
    (hg_len : ∀ a, (g a).participants.length ≤ a.participants.length)
    (hg_max : ∀ a, (g a).max_participants = a.max_participants)
    (h : StoreInv s) : StoreInv (modifyActivity s n g) := by
  constructor
  · intro b hb
    simp only [modifyActivity, List.mem_map] at hb
    obtain ⟨c, hc, rfl⟩ := hb
    by_cases hcn : c.name = n
    · rw [if_pos (by simpa using hcn)]
      rw [hg_max c]
      exact le_trans (hg_len c) (h.1 c hc)
    · rw [if_neg (by simpa using hcn)]
      exact h.1 c hc
  · have heq := map_name_modify s.activities n g hg_name
    simp only [modifyActivity]
    rw [heq]
    exact h.2

/-- One signup request keeps the invariant. -/
theorem storeInv_signup (s : Store) (n e : String) (h : StoreInv s) :
    StoreInv (signup s n e).2 := by
  cases hf : findActivity s n with
  | none =>
    rw [signup_eq_none s n e hf]
    exact h
  | some a =>
    rw [signup_eq_some s n e a hf]
    by_cases h1 : a.is_full = true
    · rw [if_pos h1]
      exact h
    · have hlt : a.participants.length < a.max_participants := by
        simp only [Activity.is_full, decide_eq_true_eq] at h1
        omega
      rw [if_neg h1]
      by_cases h2 : e ∈ s.users
      · rw [if_pos h2]
        by_cases h3 : e ∈ a.participants
        · rw [if_pos h3]
          exact h
        · rw [if_neg h3]
          exact storeInv_addParticipant e h hf hlt
      · rw [if_neg h2]
        by_cases h4 : validEmail e = true
        · rw [if_pos h4]
          by_cases h5 : lowerString e ∈ s.users
          · rw [if_pos h5]
            exact h
          · rw [if_neg h5]
            exact storeInv_addParticipant (s := { s with users := s.users ++ [lowerString e] })
              (lowerString e) h hf hlt
        · rw [if_neg h4]
          exact h

/-- One unregister request keeps the invariant. -/
theorem storeInv_unregister (s : Store) (n e : String) (h : StoreInv s) :
    StoreInv (unregister s n e).2 := by
  cases hf : findActivity s n with
  | none =>
    rw [unregister_eq_none s n e hf]
    exact h
  | some a =>
    rw [unregister_eq_some s n e a hf]
    by_cases h1 : e ∈ s.users ∧ e ∈ a.participants
    · rw [if_pos h1]
      exact storeInv_modify_shrink (fun _ => rfl)
        (fun a => List.length_erase_le e a.participants) (fun _ => rfl) h
    · rw [if_neg h1]
      exact h

/-- The freshly seeded database satisfies the invariant. -/
theorem storeInv_seeded : StoreInv (seed_initial_data emptyStore) := by
  constructor
  · decide
  · decide

/-- Every sequentially reachable store satisfies the invariant. -/
theorem storeInv_reachable {s : Store} (h : Reachable s) : StoreInv s := by
  induction h with
  | seeded => exact storeInv_seeded
  | signup_step s n e _ ih => exact storeInv_signup s n e ih
  | unregister_step s n e _ ih => exact storeInv_unregister s n e ih

/-- A name-targeted row update keeps the number of activity rows. -/
theorem modifyActivity_activities_length (s : Store) (n : String) (g : Activity → Activity) :
    (modifyActivity s n g).activities.length = s.activities.length := by
  simp [modifyActivity]

/-- One enrollment step of the seeding loop keeps the number of activity
rows. -/
theorem seedEnrollStep_activities_length (s : Store) (p : String × String) :
    (seedEnrollStep s p).activities.length = s.activities.length := by
  obtain ⟨email, aname⟩ := p
  by_cases hmem : email ∈ s.users
  · simp only [seedEnrollStep, if_pos hmem]
    cases hf : findActivity s aname with
    | none => rfl
    | some a =>
      by_cases hp : email ∈ a.participants
      · simp [hp]
      · simp [hp, addParticipant, modifyActivity]
  · simp only [seedEnrollStep, if_neg hmem]
    cases hf : findActivity { s with users := s.users ++ [lowerString email] } aname with
    | none => rfl
    | some a =>
      by_cases hp : lowerString email ∈ a.participants
      · simp [hp]
      · simp [hp, addParticipant, modifyActivity]

/-- The whole enrollment loop keeps the number of activity rows. -/
theorem foldl_seedEnrollStep_activities_length (l : List (String × String)) (s : Store) :
    (l.foldl seedEnrollStep s).activities.length = s.activities.length := by
  induction l generalizing s with
  | nil => rfl
  | cons p t ih => rw [List.foldl_cons, ih, seedEnrollStep_activities_length]

/-- After any run of the seeding procedure the activities table is
non-empty. -/
theorem seed_activities_nonempty (s : Store) :
    (seed_initial_data s).activities.isEmpty = false := by
  by_cases hs : s.activities.isEmpty
  · unfold seed_initial_data
    rw [if_pos hs]
    rw [List.isEmpty_eq_false]
    intro hnil
    have hlen := congrArg List.length hnil
    rw [seedPhase2, foldl_seedEnrollStep_activities_length] at hlen
    simp only [seedPhase1, List.length_append, List.length_nil] at hlen
    simp [initialActivities] at hlen
  · unfold seed_initial_data
    rw [if_neg hs]
    exact Bool.eq_false_iff.mpr hs

/-- A seeding run on a store whose activities table is already non-empty
returns the store unchanged (database.py line 115). -/
theorem seed_initial_data_of_nonempty (s : Store)
    (h : s.activities.isEmpty = false) : seed_initial_data s = s := by
  unfold seed_initial_data
  rw [h]
  simp

/-- The Chess Club row exactly as the bootstrap seeds it. -/
def chessSeededRow : Activity :=
  { name := "Chess Club",
    description := "Learn strategies and compete in chess tournaments",
    schedule := "Fridays, 3:30 PM - 5:00 PM",
    max_participants := 12,
    participants := ["michael@mergington.edu", "daniel@mergington.edu"] }

/-- A small fixture store: one stored user ann@x.y enrolled nowhere, one
activity with room for two. -/
def tinyStore : Store :=
  { users := ["ann@x.y"],
    activities := [ { name := "Chess Club", description := "small fixture",
                      schedule := "Fri", max_participants := 2,
                      participants := [] } ] }

/-- C7: bootstrapping an empty store yields exactly nine activities,
including Chess Club with capacity 12 whose participant set is exactly the
two seeded addresses. -/
theorem bootstrap_nine_activities_chess_club :
    (seed_initial_data emptyStore).activities.length = 9
  ∧ findActivity (seed_initial_data emptyStore) "Chess Club" = some chessSeededRow :=
  ⟨rfl, rfl⟩

/-- C9: the seeding procedure is not atomic: it is phase two run after phase
one, and the two phases commit separately; the state phase one commits on
its own holds the nine activity rows with empty participant sets and no
user rows; and the seeding procedure applied to that state returns it
unchanged, so the missing enrollments are never added by any later run. -/
theorem seed_two_commit_partial_state :
    seed_initial_data emptyStore = seedPhase2 (seedPhase1 emptyStore)
  ∧ (seedPhase1 emptyStore).activities.length = 9
  ∧ (seedPhase1 emptyStore).activities.map (fun a => a.participants)
      = [[], [], [], [], [], [], [], [], []]
  ∧ (seedPhase1 emptyStore).users = []
  ∧ seed_initial_data (seedPhase1 emptyStore) = seedPhase1 emptyStore :=
  ⟨rfl, rfl, rfl, rfl, rfl⟩

/-- C3 (documents the code bug): on the seeded store, signing up with an
address that does not match the local@domain.tld shape is not surfaced as an
HTTP 400 validation error: the ValueError raised by the validates hook
matches none of the except clauses of the route, so it escapes the handler
unhandled (an HTTP 500 at the framework boundary); the store is left
unchanged. -/
theorem signup_malformed_email_escapes_unhandled :
    signup (seed_initial_data emptyStore) "Chess Club" "not-an-email"
      = (ApiResult.unhandled "Invalid email format", seed_initial_data emptyStore) := by
  rfl

/-- C8: reset mutates nothing and reports failure for every confirmation
other than the exact literal RESET; with the exact token it drops and
recreates all tables and re-runs the bootstrap seeding. -/
theorem reset_requires_exact_confirmation (c : String) (s : Store) :
    (c ≠ "RESET" → reset_database c s = (false, s))
  ∧ (c = "RESET" → reset_database c s = (true, seed_initial_data emptyStore)) := by
  constructor
  · intro h
    simp [reset_database, h]
  · intro h
    simp [reset_database, h]

/-- C8 witness: the lowercase and the empty confirmations leave a concrete
store untouched and report failure; the exact token rebuilds the canonical
state. -/
theorem reset_requires_exact_confirmation_witness :
    reset_database "reset" tinyStore = (false, tinyStore)
  ∧ reset_database "" tinyStore = (false, tinyStore)
  ∧ reset_database "RESET" tinyStore = (true, seed_initial_data emptyStore) :=
  ⟨(reset_requires_exact_confirmation "reset" tinyStore).1 (by decide),
   (reset_requires_exact_confirmation "" tinyStore).1 (by decide),
   (reset_requires_exact_confirmation "RESET" tinyStore).2 rfl⟩

/-- C5: running the bootstrap seeding twice in sequence equals running it
once: after one run the activities table is non-empty, so the emptiness
check at the top makes the second run return with no mutation. -/
theorem seed_idempotent (s : Store) :
    seed_initial_data (seed_initial_data s) = seed_initial_data s
  ∧ (seed_initial_data s).activities.isEmpty = false :=
  ⟨seed_initial_data_of_nonempty _ (seed_activities_nonempty s),
   seed_activities_nonempty s⟩

/-- C2: with the activity present and within the standing capacity
invariant of sequential operation, signup is rejected with the capacity
error exactly when the participant count equals max_participants at call
time, whatever the e-mail. -/
theorem signup_capacity_exceeded_iff (s : Store) (n e : String) (a : Activity)
    (ha : findActivity s n = some a)
    (hinv : a.participants.length ≤ a.max_participants) :
    ((signup s n e).1 = ApiResult.httpError 400 "Activity is full"
      ↔ a.participants.length = a.max_participants) := by
  rw [signup_eq_some s n e a ha]
  by_cases h1 : a.is_full = true
  · rw [if_pos h1]
    simp only [Activity.is_full, decide_eq_true_eq] at h1
    constructor
    · intro _
      omega
    · intro _
      rfl
  · have hlt : a.participants.length < a.max_participants := by
      simp only [Activity.is_full, decide_eq_true_eq] at h1
      omega
    have hne : a.participants.length ≠ a.max_participants := by omega
    rw [if_neg h1]
    simp only [hne, iff_false]
    split_ifs with h2 h3 h4 h5 <;> simp

/-- C2 witness: on the fixture store the Chess Club has 0 of 2 seats taken,
and the request is indeed not rejected as full. -/
theorem signup_capacity_exceeded_iff_witness :
    ¬((signup tinyStore "Chess Club" "ann@x.y").1
        = ApiResult.httpError 400 "Activity is full") :=
  fun h =>
    absurd ((signup_capacity_exceeded_iff tinyStore "Chess Club" "ann@x.y"
      { name := "Chess Club", description := "small fixture", schedule := "Fri",
        max_participants := 2, participants := [] }
      rfl (by decide)).mp h) (by decide)

/-- C1: the signup checks run in the order stated by the specification:
(a) missing activity gives 404 before anything else; (b) a full activity
gives the capacity 400 regardless of the e-mail; then the user is resolved
by raw e-mail, created when absent; (d) a resolved existing participant
gives the already-signed-up 400; on success the enrollment (and, when the
user was created, the lower-cased user row) is committed in one step, and
on every error outcome the store is unchanged, so the new user row and the
new enrollment persist together or not at all. -/
theorem signup_check_order_and_atomic_commit (s : Store) (n e : String) :
    (findActivity s n = none →
       signup s n e = (ApiResult.httpError 404 "Activity not found", s))
  ∧ (∀ a, findActivity s n = some a → a.is_full = true →
       signup s n e = (ApiResult.httpError 400 "Activity is full", s))
  ∧ (∀ a, findActivity s n = some a → a.is_full = false → e ∈ s.users →
       e ∈ a.participants →
       signup s n e = (ApiResult.httpError 400 "Student is already signed up", s))
  ∧ (∀ a, findActivity s n = some a → a.is_full = false → e ∈ s.users →
       e ∉ a.participants →
       signup s n e = (ApiResult.ok ("Signed up " ++ e ++ " for " ++ n),
         addParticipant s n e))
  ∧ (∀ a, findActivity s n = some a → a.is_full = false → e ∉ s.users →
       validEmail e = true → lowerString e ∉ s.users →
       signup s n e = (ApiResult.ok ("Signed up " ++ e ++ " for " ++ n),
         addParticipant { s with users := s.users ++ [lowerString e] } n (lowerString e)))
  ∧ ((signup s n e).1.isOk = false → (signup s n e).2 = s) := by
  refine ⟨?_, ?_, ?_, ?_, ?_, ?_⟩
  · intro h
    exact signup_eq_none s n e h
  · intro a ha hful
    rw [signup_eq_some s n e a ha, if_pos hful]
  · intro a ha hful hu hp
    rw [signup_eq_some s n e a ha, if_neg (by simp [hful]), if_pos hu, if_pos hp]
  · intro a ha hful hu hp
    rw [signup_eq_some s n e a ha, if_neg (by simp [hful]), if_pos hu, if_neg hp]
  · intro a ha hful hu hv hl
    rw [signup_eq_some s n e a ha, if_neg (by simp [hful]), if_neg hu, if_pos hv,
      if_neg hl]
  · intro hok
    cases hf : findActivity s n with
    | none =>
      rw [signup_eq_none s n e hf]
    | some a =>
      rw [signup_eq_some s n e a hf] at hok ⊢
      split_ifs at hok ⊢ with h1 h2 h3 h4 h5
      all_goals first
        | rfl
        | (exfalso; simp [ApiResult.isOk] at hok)

/-- C1 witness: on the fixture store, a missing activity gives 404; a
new-user signup commits both the lower-cased user row and the enrollment;
and the follow-up duplicate signup gives the already-signed-up 400 with the
store unchanged. -/
theorem signup_check_order_and_atomic_commit_witness :
    signup tinyStore "Math Club" "ann@x.y"
      = (ApiResult.httpError 404 "Activity not found", tinyStore)
  ∧ signup tinyStore "Chess Club" "Bea@x.y"
      = (ApiResult.ok "Signed up Bea@x.y for Chess Club",
         addParticipant { tinyStore with users := tinyStore.users ++ ["bea@x.y"] }
           "Chess Club" "bea@x.y")
  ∧ signup { users := ["ann@x.y"],
             activities := [ { name := "Chess Club", description := "small fixture",
                               schedule := "Fri", max_participants := 2,
                               participants := ["ann@x.y"] } ] } "Chess Club" "ann@x.y"
      = (ApiResult.httpError 400 "Student is already signed up",
         { users := ["ann@x.y"],
           activities := [ { name := "Chess Club", description := "small fixture",
                             schedule := "Fri", max_participants := 2,
                             participants := ["ann@x.y"] } ] }) := by
  refine ⟨?_, ?_, ?_⟩
  · exact (signup_check_order_and_atomic_commit tinyStore "Math Club" "ann@x.y").1
      (by decide)
  · exact (signup_check_order_and_atomic_commit tinyStore "Chess Club" "Bea@x.y").2.2.2.2.1
      { name := "Chess Club", description := "small fixture", schedule := "Fri",
        max_participants := 2, participants := [] }
      rfl (by decide) (by decide) (by decide) (by decide)
  · exact (signup_check_order_and_atomic_commit _ "Chess Club" "ann@x.y").2.2.1
      { name := "Chess Club", description := "small fixture", schedule := "Fri",
        max_participants := 2, participants := ["ann@x.y"] }
      rfl (by decide) (by decide) (by decide)

/-- A fixture store for C10: bob@x.com is stored lower-case and enrolled in
an Art Club that is at capacity (1 of 1). -/
def fullClubStore : Store :=
  { users := ["bob@x.com"],
    activities := [ { name := "Art Club",
                      description := "Explore your creativity through painting and drawing",
                      schedule := "Thursdays, 3:30 PM - 5:00 PM",
                      max_participants := 1,
                      participants := ["bob@x.com"] } ] }

/-- The same fixture with room to spare (1 of 15). -/
def artClubStore : Store :=
  { users := ["bob@x.com"],
    activities := [ { name := "Art Club",
                      description := "Explore your creativity through painting and drawing",
                      schedule := "Thursdays, 3:30 PM - 5:00 PM",
                      max_participants := 15,
                      participants := ["bob@x.com"] } ] }

/-- C10 counterexample: bob@x.com is stored lower-case and enrolled in Art
Club, and Bob@x.com is a mixed-case variant of it, yet signup does not fail
with the storage uniqueness violation the claim predicts for every such
state: the activity is at capacity, so the request is rejected as full
before the user lookup ever runs. -/
theorem signup_case_variant_counterexample :
    signup fullClubStore "Art Club" "Bob@x.com"
      = (ApiResult.httpError 400 "Activity is full", fullClubStore)
  ∧ ((signup fullClubStore "Art Club" "Bob@x.com").1
      == ApiResult.httpError 400 "Data integrity error - possibly invalid email format")
      = false :=
  ⟨rfl, rfl⟩

/-- C10 (amended with the capacity proviso): provided the activity is not at
capacity, the raw-e-mail lookup misses the stored lower-case row, signup
does not return the already-signed-up error, and the attempted creation of
the duplicate user fails at flush with the storage uniqueness violation
surfaced as the integrity 400 response, leaving the store unchanged. -/
theorem signup_case_variant_duplicate_integrity (s : Store) (n eLow eVar : String)
    (a : Activity)
    (ha : findActivity s n = some a)
    (hful : a.is_full = false)
    (hstored : eLow ∈ s.users)
    (_henr : eLow ∈ a.participants)
    (hvar_lower : lowerString eVar = eLow)
    (_hvar_ne : eVar ≠ eLow)
    (hvar_nostore : eVar ∉ s.users)
    (hvalid : validEmail eVar = true) :
    signup s n eVar
      = (ApiResult.httpError 400 "Data integrity error - possibly invalid email format",
         s) := by
  rw [signup_eq_some s n eVar a ha, if_neg (by simp [hful]), if_neg hvar_nostore,
    if_pos hvalid, if_pos (hvar_lower ▸ hstored)]

/-- C10 witness: with a seat free in the Art Club fixture, the mixed-case
variant signup is rejected with the integrity 400 and the store is
unchanged. -/
theorem signup_case_variant_duplicate_integrity_witness :
    signup artClubStore "Art Club" "Bob@x.com"
      = (ApiResult.httpError 400 "Data integrity error - possibly invalid email format",
         artClubStore) :=
  signup_case_variant_duplicate_integrity artClubStore "Art Club" "bob@x.com" "Bob@x.com"
    { name := "Art Club",
      description := "Explore your creativity through painting and drawing",
      schedule := "Thursdays, 3:30 PM - 5:00 PM",
      max_participants := 15,
      participants := ["bob@x.com"] }
    rfl (by decide) (by decide) (by decide) (by decide) (by decide) (by decide)
    (by decide)

/-- C4: in every store reachable from the seeded database by sequential
signup and unregister requests, every activity satisfies
0 <= participant count <= max_participants. -/
theorem sequential_capacity_invariant {s : Store} (h : Reachable s) :
    ∀ a ∈ s.activities,
      0 ≤ a.participants.length ∧ a.participants.length ≤ a.max_participants :=
  fun a ha => ⟨Nat.zero_le _, (storeInv_reachable h).1 a ha⟩

/-- C4 witness: the seeded store itself is reachable and its Chess Club row
satisfies the bounds. -/
theorem sequential_capacity_invariant_witness :
    0 ≤ chessSeededRow.participants.length
  ∧ chessSeededRow.participants.length ≤ chessSeededRow.max_participants :=
  sequential_capacity_invariant Reachable.seeded chessSeededRow (by decide)

/-- The users column does not feed into the activity lookup. -/
theorem findActivity_users_irrel (s : Store) (v : List String) (n : String) :
    findActivity { s with users := v } n = findActivity s n := rfl

/-- Appending a fresh participant to the found activity and then erasing it
again restores the activities table, given unique names and that the
participant was not already enrolled. -/
theorem add_then_remove_activities (s : Store) (n u : String) (a : Activity)
    (hnames : (s.activities.map (fun a => a.name)).Nodup)
    (hf : findActivity s n = some a)
    (hnp : u ∉ a.participants) :
    (removeParticipant (addParticipant s n u) n u).activities = s.activities := by
  simp only [removeParticipant, addParticipant, modifyActivity, List.map_map]
  apply list_map_id_of_mem
  intro b hb
  simp only [Function.comp_apply]
  by_cases hbn : b.name = n
  · have hba : b = a := findActivity_eq_of_nodup hnames hf hb hbn
    subst hba
    have hbeq : (b.name == n) = true := by simpa using hbn
    simp [hbeq, erase_append_singleton hnp]
  · have hbeq : (b.name == n) = false := by simpa using hbn
    simp [hbeq]

/-- C6: when a signup and the immediately following unregister for the same
activity and e-mail both succeed, the activities table (hence the
participant set of the activity) is restored to exactly its prior value.
The hypotheses are the storage constraints: activity names are unique and
every association row references a stored user. -/
theorem signup_unregister_round_trip (s : Store) (n e : String)
    (hnames : (s.activities.map (fun a => a.name)).Nodup)
    (href : ∀ a ∈ s.activities, ∀ u ∈ a.participants, u ∈ s.users)
    (m1 m2 : String) (s1 s2 : Store)
    (hsign : signup s n e = (ApiResult.ok m1, s1))
    (hunreg : unregister s1 n e = (ApiResult.ok m2, s2)) :
    s2.activities = s.activities := by
  cases hf : findActivity s n with
  | none =>
    rw [signup_eq_none s n e hf] at hsign
    simp at hsign
  | some a =>
    have hfm := findActivity_mem hf
    rw [signup_eq_some s n e a hf] at hsign
    by_cases h1 : a.is_full = true
    · rw [if_pos h1] at hsign
      simp at hsign
    · rw [if_neg h1] at hsign
      by_cases h2 : e ∈ s.users
      · rw [if_pos h2] at hsign
        by_cases h3 : e ∈ a.participants
        · rw [if_pos h3] at hsign
          simp at hsign
        · rw [if_neg h3] at hsign
          injection hsign with hA hB
          subst hB
          have hfa1 : findActivity (addParticipant s n e) n
              = some { a with participants := a.participants ++ [e] } := by
            rw [addParticipant,
              findActivity_modify s n n
                (fun x => { x with participants := x.participants ++ [e] })
                (fun _ => rfl),
              hf]
            simp [hfm.2]
          rw [unregister_eq_some _ n e _ hfa1] at hunreg
          by_cases hc : e ∈ (addParticipant s n e).users
              ∧ e ∈ ({ a with participants := a.participants ++ [e] } : Activity).participants
          · rw [if_pos hc] at hunreg
            injection hunreg with hC hD
            subst hD
            exact add_then_remove_activities s n e a hnames hf h3
          · rw [if_neg hc] at hunreg
            simp at hunreg
      · rw [if_neg h2] at hsign
        by_cases h4 : validEmail e = true
        · rw [if_pos h4] at hsign
          by_cases h5 : lowerString e ∈ s.users
          · rw [if_pos h5] at hsign
            simp at hsign
          · rw [if_neg h5] at hsign
            injection hsign with hA hB
            subst hB
            have hfa1 : findActivity
                (addParticipant { s with users := s.users ++ [lowerString e] } n
                  (lowerString e)) n
                = some { a with participants := a.participants ++ [lowerString e] } := by
              rw [addParticipant,
                findActivity_modify { s with users := s.users ++ [lowerString e] } n n
                  (fun x => { x with participants := x.participants ++ [lowerString e] })
                  (fun _ => rfl),
                findActivity_users_irrel, hf]
              simp [hfm.2]
            rw [unregister_eq_some _ n e _ hfa1] at hunreg
            by_cases hc : e ∈ (addParticipant { s with users := s.users ++ [lowerString e] }
                  n (lowerString e)).users
                ∧ e ∈ ({ a with participants := a.participants ++ [lowerString e] }
                    : Activity).participants
            · rw [if_pos hc] at hunreg
              have husers : e ∈ s.users ++ [lowerString e] := hc.1
              have he : e = lowerString e := by
                rcases List.mem_append.mp husers with h | h
                · exact absurd h h2
                · simpa using h
              injection hunreg with hC hD
              subst hD
              rw [← he]
              have hnp : e ∉ a.participants := fun hmem => h2 (href a hfm.1 e hmem)
              exact add_then_remove_activities { s with users := s.users ++ [e] } n e a
                hnames hf hnp
            · rw [if_neg hc] at hunreg
              simp at hunreg
        · rw [if_neg h4] at hsign
          simp at hsign

/-- C6 witness: on the fixture store, signing the new address bea@x.y up for
the fixture Chess Club and then unregistering it restores the activities
table exactly. -/
theorem signup_unregister_round_trip_witness :
    (unregister (signup tinyStore "Chess Club" "bea@x.y").2 "Chess Club" "bea@x.y").2.activities
      = tinyStore.activities :=
  signup_unregister_round_trip tinyStore "Chess Club" "bea@x.y" (by decide)
    (by decide)
    "Signed up bea@x.y for Chess Club" "Unregistered bea@x.y from Chess Club"
    (signup tinyStore "Chess Club" "bea@x.y").2
    (unregister (signup tinyStore "Chess Club" "bea@x.y").2 "Chess Club" "bea@x.y").2
    (by decide) (by decide)
